import Mathlib

/-
Verification of the ProMoAI BPMN front-end (src/promoai.py and src/app.py).

Python strings are modelled as `List Char`.  The Python primitives used by
the code under verification are embedded directly:
  * `sep in s`          -> `occursIn`
  * `s.split(sep)[0]`   -> `takeUntil sep s`
  * `s.split(sep)[1]`   -> `takeUntil sep (afterFirst sep s)`
  * `s.strip()`         -> `pyStrip` (ASCII whitespace; Python additionally
                           strips rare Unicode whitespace, elided here)
  * `s.startswith(p)`   -> `List.isPrefixOf`
  * `s.endswith(p)`     -> `pyEndsWith`
The vendor SDKs and the pm4py library are external collaborators; they are
modelled as oracle functions inside environment structures, and every call
the code makes to them is recorded in a trace so that claims about which
calls happen can be stated.
-/

set_option maxRecDepth 4000

/-- Character data of a string literal. -/
def sData (s : String) : List Char := s.data

/-- Python substring test `sep in s`. -/
def occursIn (sep : List Char) : List Char → Bool
  | [] => sep.isEmpty
  | c :: t => sep.isPrefixOf (c :: t) || occursIn sep t

/-- Prefix of `s` strictly before the first occurrence of `sep`
(Python `s.split(sep)[0]`); the whole of `s` when `sep` does not occur. -/
def takeUntil (sep : List Char) : List Char → List Char
  | [] => []
  | c :: t => if sep.isPrefixOf (c :: t) then [] else c :: takeUntil sep t

/-- Suffix of `s` strictly after the first occurrence of `sep`.
`takeUntil sep (afterFirst sep s)` is Python `s.split(sep)[1]` whenever
`sep` occurs in `s`. -/
def afterFirst (sep : List Char) : List Char → List Char
  | [] => []
  | c :: t => if sep.isPrefixOf (c :: t) then (c :: t).drop sep.length else afterFirst sep t

/-- ASCII whitespace characters removed by Python `str.strip()`. -/
def isPySpace (c : Char) : Bool :=
  c = ' ' || c = '\t' || c = '\n' || c = '\r' || c = '\x0b' || c = '\x0c'

/-- Python `s.strip()`. -/
def pyStrip (s : List Char) : List Char :=
  ((s.dropWhile isPySpace).reverse.dropWhile isPySpace).reverse

/-- Python `s.endswith(suffix)`. -/
def pyEndsWith (suffix s : List Char) : Bool := suffix.isSuffixOf s

/-- The backtick character. -/
def tick : Char := '\x60'

/-- The markdown fence token `` ``` ``. -/
def fence3 : List Char := [tick, tick, tick]

/-- The markdown fence token `` ```xml ``. -/
def fenceXml : List Char := [tick, tick, tick, 'x', 'm', 'l']

/-- The prefix `<?xml` tested by `_clean_xml_response`. -/
def xmlHead : List Char := ['<', '?', 'x', 'm', 'l']

/-- The canonical XML declaration prepended by `_clean_xml_response`. -/
def xmlDecl : List Char := sData "<?xml version=\"1.0\" encoding=\"UTF-8\"?>"

/-- Fence-stripping stage of `ProMoAI._clean_xml_response`
(src/promoai.py lines 196-199): the two `split` chains. -/
def fenceStage (xml_text : List Char) : List Char :=
  if occursIn fenceXml xml_text then
    takeUntil fence3 (takeUntil fenceXml (afterFirst fenceXml xml_text))
  else if occursIn fence3 xml_text then
    takeUntil fence3 (takeUntil fence3 (afterFirst fence3 xml_text))
  else xml_text

/-- Final stage of `ProMoAI._clean_xml_response`
(src/promoai.py lines 201-208): strip, then prepend the declaration
unless the text already starts with `<?xml`. -/
def finishStage (xml_text : List Char) : List Char :=
  let t := pyStrip xml_text
  if xmlHead.isPrefixOf t then t else xmlDecl ++ '\n' :: t

/-- Embedding of `ProMoAI._clean_xml_response` (src/promoai.py lines 193-208). -/
def clean_xml_response (xml_text : List Char) : List Char :=
  finishStage (fenceStage xml_text)

/-- Fixed part of `base_prompt` before `{description}`
(src/promoai.py lines 76-79). -/
def promptHead : List Char :=
  sData "\n        Convert the following process description into a BPMN 2.0 XML format:\n        \n        "

/-- Fixed part of `base_prompt` after `{description}`
(src/promoai.py lines 80-86). -/
def promptMid : List Char :=
  sData "\n        \n        Please provide a valid BPMN 2.0 XML that includes:\n        - Start and end events\n        - Tasks/activities\n        - Gateways (if needed)\n        - Sequence flows\n        "

/-- The closing directive sentence of the prompt. -/
def directive : List Char := sData "Return only the XML code without any explanation."

/-- Tail appended to `base_prompt` when no custom instructions are given
(src/promoai.py lines 98-101). -/
def tailPlain : List Char :=
  sData "\n        \n        Return only the XML code without any explanation.\n        "

/-- Part of the custom-instruction tail before `{custom_instructions}`
(src/promoai.py lines 90-93). -/
def tailInstrPre : List Char :=
  sData "\n        \n        Additional instructions:\n        "

/-- Part of the custom-instruction tail after `{custom_instructions}`
(src/promoai.py lines 94-96). -/
def tailInstrPost : List Char :=
  sData "\n        \n        Return only the XML code without any explanation.\n        "

/-- The `base_prompt` value of `generate_bpmn_from_text` (src/promoai.py lines 76-86). -/
def base_prompt (description : List Char) : List Char :=
  promptHead ++ description ++ promptMid

/-- The full prompt built by `generate_bpmn_from_text`
(src/promoai.py lines 88-101); the `if custom_instructions:` test is
Python truthiness, i.e. non-emptiness. -/
def build_prompt (description custom_instructions : List Char) : List Char :=
  if custom_instructions.isEmpty then
    base_prompt description ++ tailPlain
  else
    base_prompt description ++ tailInstrPre ++ custom_instructions ++ tailInstrPost

example : fenceStage (sData "pre ```xml<a/>``` post") = sData "<a/>" := by decide
example : clean_xml_response (sData "  <?xml version=\"1.0\"?><x/>  ") =
    sData "<?xml version=\"1.0\"?><x/>" := by decide
example : clean_xml_response [] = xmlDecl ++ ['\n'] := by decide

/-! ## The AI-provider dispatch (`ProMoAI._get_ai_response`) -/

/-- Shape of an OpenAI chat-completion reply: `response.choices[0].message.content`. -/
structure OpenAIMessage where
  content : List Char
deriving DecidableEq

structure OpenAIChoice where
  message : OpenAIMessage
deriving DecidableEq

structure OpenAIResponse where
  choices : List OpenAIChoice
deriving DecidableEq

/-- Shape of an Anthropic reply: `response.content[0].text`. -/
structure AnthropicBlock where
  text : List Char
deriving DecidableEq

structure AnthropicResponse where
  content : List AnthropicBlock
deriving DecidableEq

/-- Shape of a Google Gemini reply: `response.text`. -/
structure GoogleResponse where
  text : List Char
deriving DecidableEq

/-- Shape of a Cohere reply: `response.generations[0].text`. -/
structure CohereGeneration where
  text : List Char
deriving DecidableEq

structure CohereResponse where
  generations : List CohereGeneration
deriving DecidableEq

/-- Record of one vendor-SDK invocation: which provider's endpoint was hit
and which of the keyword arguments `model`, `temperature` and `max_tokens`
were passed (`none` when the source passes no such argument). -/
structure VendorCall where
  provider : List Char
  modelArg : Option (List Char)
  promptArg : List Char
  temperature : Option ℚ
  maxTokens : Option Nat
deriving DecidableEq

/-- The external world `_get_ai_response` interacts with: whether each
vendor library imported successfully (src/promoai.py lines 14-32), and
the behaviour of each vendor's completion endpoint (`Except.error` models
the call raising an exception). The Google client is bound to the model
at `genai.GenerativeModel(self.model)` time, so its call takes the prompt
only. -/
structure AIEnv where
  openaiAvailable : Bool
  anthropicAvailable : Bool
  googleAvailable : Bool
  cohereAvailable : Bool
  openaiCall : List Char → List Char → Except (List Char) OpenAIResponse
  anthropicCall : List Char → List Char → Except (List Char) AnthropicResponse
  googleCall : List Char → Except (List Char) GoogleResponse
  cohereCall : List Char → List Char → Except (List Char) CohereResponse

/-- Message of a Python `IndexError` on `[0]` of an empty list. -/
def indexError : List Char := sData "list index out of range"

/-- Arguments of `self.client.chat.completions.create(model=..., ...,
temperature=0.3, max_tokens=2000)` (src/promoai.py lines 151-159). -/
def openaiRecord (model prompt : List Char) : VendorCall :=
  ⟨sData "OpenAI", some model, prompt, some ((3 : ℚ)/10), some 2000⟩

/-- Arguments of `self.client.messages.create(model=..., ...,
max_tokens=2000, temperature=0.3)` (src/promoai.py lines 163-170). -/
def anthropicRecord (model prompt : List Char) : VendorCall :=
  ⟨sData "Anthropic", some model, prompt, some ((3 : ℚ)/10), some 2000⟩

/-- Arguments of `self.client.generate_content(prompt)`
(src/promoai.py line 174): no model, temperature or token arguments. -/
def googleRecord (prompt : List Char) : VendorCall :=
  ⟨sData "Google", none, prompt, none, none⟩

/-- Arguments of `self.client.generate(model=..., prompt=...,
max_tokens=2000, temperature=0.3)` (src/promoai.py lines 178-183). -/
def cohereRecord (model prompt : List Char) : VendorCall :=
  ⟨sData "Cohere", some model, prompt, some ((3 : ℚ)/10), some 2000⟩

/-- Body of the `try:` block of `ProMoAI._get_ai_response`
(src/promoai.py lines 150-187): the four-way dispatch plus the fallback
sentinel. `Except.error` is an exception escaping the body; the second
component is the trace of vendor calls issued. -/
def get_ai_response_body (env : AIEnv) (provider model prompt : List Char) :
    Except (List Char) (List Char) × List VendorCall :=
  if provider = sData "OpenAI" ∧ env.openaiAvailable then
    (match env.openaiCall model prompt with
      | .error e => .error e
      | .ok r =>
        match r.choices with
        | [] => .error indexError
        | c :: _ => .ok c.message.content,
     [openaiRecord model prompt])
  else if provider = sData "Anthropic" ∧ env.anthropicAvailable then
    (match env.anthropicCall model prompt with
      | .error e => .error e
      | .ok r =>
        match r.content with
        | [] => .error indexError
        | b :: _ => .ok b.text,
     [anthropicRecord model prompt])
  else if provider = sData "Google" ∧ env.googleAvailable then
    (match env.googleCall prompt with
      | .error e => .error e
      | .ok r => .ok r.text,
     [googleRecord prompt])
  else if provider = sData "Cohere" ∧ env.cohereAvailable then
    (match env.cohereCall model prompt with
      | .error e => .error e
      | .ok r =>
        match r.generations with
        | [] => .error indexError
        | g :: _ => .ok g.text,
     [cohereRecord model prompt])
  else
    (.ok (sData "Provider not properly configured"), [])

/-- Observable outcome of `ProMoAI._get_ai_response`: the returned string,
the `st.error` messages shown to the user, and the vendor calls issued. -/
structure AIOutcome where
  result : List Char
  errors : List (List Char)
  calls : List VendorCall
deriving DecidableEq

/-- Embedding of `ProMoAI._get_ai_response` (src/promoai.py lines 147-191): any
exception from the body is caught, shown via
`st.error(f"Error getting AI response: {str(e)}")`, and `""` is returned. -/
def get_ai_response (env : AIEnv) (provider model prompt : List Char) : AIOutcome :=
  match get_ai_response_body env provider model prompt with
  | (.ok s, calls) => ⟨s, [], calls⟩
  | (.error e, calls) => ⟨[], [sData "Error getting AI response: " ++ e], calls⟩

/-- The dictionary returned by `ProMoAI.generate_bpmn_from_text`, together
with the error messages surfaced and the vendor calls issued on the way. -/
structure GenOutcome where
  bpmn_xml : List Char
  status : List Char
  message : List Char
  errors : List (List Char)
  calls : List VendorCall
deriving DecidableEq

/-- Embedding of `ProMoAI.generate_bpmn_from_text` (src/promoai.py lines 72-113). -/
def generate_bpmn_from_text (env : AIEnv)
    (provider model description custom_instructions : List Char) : GenOutcome :=
  let o := get_ai_response env provider model (build_prompt description custom_instructions)
  ⟨clean_xml_response o.result, sData "success",
   sData "BPMN model generated successfully", o.errors, o.calls⟩

/-! ## Event-log analysis (`analyze_event_log`) -/

/-- A pm4py event log: a list of traces, each a list of (opaque) events. -/
abbrev EventLog := List (List Nat)

/-- Opaque pm4py process-tree object. -/
abbrev ProcessTree := Nat

/-- Opaque pm4py BPMN-model object. -/
abbrev BpmnModel := Nat

/-- One pm4py library call issued by `analyze_event_log`. -/
inductive Pm4pyCall where
  | readXes (path : List Char)
  | readCsv (path : List Char)
  | discoverInductive
  | convertToBpmn
deriving DecidableEq

/-- The pm4py library as seen by `analyze_event_log`: whether the import
succeeded, and the behaviour of the four library entry points
(`Except.error` models the call raising). -/
structure Pm4pyEnv where
  available : Bool
  read_xes : List Char → Except (List Char) EventLog
  read_csv : List Char → Except (List Char) EventLog
  discover_tree : EventLog → Except (List Char) ProcessTree
  tree_to_bpmn : ProcessTree → Except (List Char) BpmnModel

/-- The dictionary returned by `analyze_event_log`, plus the pm4py calls
issued. -/
structure AnalyzeOutcome where
  status : List Char
  message : List Char
  num_traces : Option Nat
  num_events : Option Nat
  bpmn_model : Option BpmnModel
  calls : List Pm4pyCall
deriving DecidableEq

/-- Error envelope of the `except` clause of `analyze_event_log`
(src/promoai.py lines 275-279). -/
def analyzeError (e : List Char) (calls : List Pm4pyCall) : AnalyzeOutcome :=
  ⟨sData "error", sData "Error analyzing event log: " ++ e, none, none, none, calls⟩

/-- Statistics and discovery part of `analyze_event_log`
(src/promoai.py lines 259-273), run after a successful read. -/
def analyzeDiscover (env : Pm4pyEnv) (log : EventLog) (calls : List Pm4pyCall) :
    AnalyzeOutcome :=
  let num_traces := log.length
  let num_events := (log.map List.length).sum
  match env.discover_tree log with
  | .error e => analyzeError e (calls ++ [.discoverInductive])
  | .ok t =>
    match env.tree_to_bpmn t with
    | .error e => analyzeError e (calls ++ [.discoverInductive, .convertToBpmn])
    | .ok b =>
      ⟨sData "success", sData "Event log analyzed successfully",
       some num_traces, some num_events, some b,
       calls ++ [.discoverInductive, .convertToBpmn]⟩

/-- Embedding of `analyze_event_log` (src/promoai.py lines 239-279). -/
def analyze_event_log (env : Pm4pyEnv) (file_path : List Char) : AnalyzeOutcome :=
  if ¬env.available then
    ⟨sData "error", sData "pm4py library not installed", none, none, none, []⟩
  else if pyEndsWith (sData ".xes") file_path then
    match env.read_xes file_path with
    | .error e => analyzeError e [.readXes file_path]
    | .ok log => analyzeDiscover env log [.readXes file_path]
  else if pyEndsWith (sData ".csv") file_path then
    match env.read_csv file_path with
    | .error e => analyzeError e [.readCsv file_path]
    | .ok log => analyzeDiscover env log [.readCsv file_path]
  else
    ⟨sData "error", sData "Unsupported file format", none, none, none, []⟩

/-- File types accepted by the event-log uploader
(src/app.py line 191: `type=['xes', 'csv', 'gz']`). -/
def event_log_upload_types : List (List Char) :=
  [sData "xes", sData "csv", sData "gz"]

/-! ## Authentication gate (src/app.py lines 7-33 and 59-61) -/

/-- Environment-derived authentication configuration
(src/app.py lines 7-9). -/
structure AuthConfig where
  authUsername : List Char
  authPassword : List Char
  enableAuth : Bool
deriving DecidableEq

/-- Streamlit session state as used by `check_password`: whether the key
`"password_correct"` is present (it is only ever set to `True`). -/
structure SessionState where
  passwordCorrect : Bool
deriving DecidableEq

/-- One submission of the login form. -/
structure LoginForm where
  submitted : Bool
  username : List Char
  password : List Char
deriving DecidableEq

/-- Observable outcome of one run of `check_password`: its return value,
the session state afterwards, whether the invalid-credentials error was
shown, and whether `st.rerun()` was triggered. -/
structure CheckOutcome where
  returnValue : Bool
  state : SessionState
  errorShown : Bool
  rerun : Bool
deriving DecidableEq

/-- Embedding of `check_password` (src/app.py lines 11-33). When the session is not yet
authenticated the login form is shown; on a submitted matching pair the
state key is set and `st.rerun()` fires (so the function does not return);
on a submitted non-matching pair the error is shown and `False` is
returned; once the key is set the function returns `True` immediately. -/
def check_password (cfg : AuthConfig) (st : SessionState) (form : LoginForm) :
    CheckOutcome :=
  if st.passwordCorrect then
    ⟨true, st, false, false⟩
  else if form.submitted then
    if form.username = cfg.authUsername ∧ form.password = cfg.authPassword then
      ⟨false, ⟨true⟩, false, true⟩
    else
      ⟨false, st, true, false⟩
  else
    ⟨false, st, false, false⟩

/-- The gate in `main` (src/app.py lines 59-61):
`if ENABLE_AUTH and not check_password(): return` — the rest of the app
runs iff authentication is disabled or `check_password` returned `True`. -/
def gate_passes (cfg : AuthConfig) (st : SessionState) (form : LoginForm) : Bool :=
  !cfg.enableAuth || (check_password cfg st form).returnValue

/-! ## Lemmas about the embedded string primitives -/

theorem isPrefixOf_trans {a b c : List Char} (h1 : a.isPrefixOf b = true)
    (h2 : b.isPrefixOf c = true) : a.isPrefixOf c = true :=
  List.isPrefixOf_iff_prefix.mpr
    (( List.isPrefixOf_iff_prefix.mp h1).trans ( List.isPrefixOf_iff_prefix.mp h2))

theorem isPrefixOf_append_right {a m : List Char} (n : List Char)
    (h : a.isPrefixOf m = true) : a.isPrefixOf (m ++ n) = true :=
  List.isPrefixOf_iff_prefix.mpr
    (( List.isPrefixOf_iff_prefix.mp h).trans ( List.prefix_append m n))

theorem occursIn_of_isPrefixOf {sep s : List Char} (h : sep.isPrefixOf s = true) :
    occursIn sep s = true := by
  cases s with
  | nil =>
    have : sep = [] := List.prefix_nil.mp ( List.isPrefixOf_iff_prefix.mp h)
    simp [occursIn, this]
  | cons c t => simp [occursIn, h]

theorem occursIn_sandwich (sep a b : List Char) : occursIn sep (a ++ sep ++ b) = true := by
  induction a with
  | nil =>
    simp only [List.nil_append]
    exact occursIn_of_isPrefixOf ( List.isPrefixOf_iff_prefix.mpr ( List.prefix_append sep b))
  | cons c a ih =>
    simp only [List.cons_append, occursIn, List.append_eq, ih, Bool.or_true]

theorem occursIn_cons_false {sep : List Char} {c : Char} {t : List Char}
    (h : occursIn sep (c :: t) = false) :
    sep.isPrefixOf (c :: t) = false ∧ occursIn sep t = false := by
  simpa [occursIn, Bool.or_eq_false_iff] using h

theorem occursIn_mono {sub sep s : List Char} (hsub : sub.isPrefixOf sep = true)
    (h : occursIn sep s = true) : occursIn sub s = true := by
  induction s with
  | nil =>
    have : sep = [] := by simpa [occursIn, List.isEmpty_iff] using h
    subst this
    have : sub = [] := List.prefix_nil.mp ( List.isPrefixOf_iff_prefix.mp hsub)
    simp [occursIn, this]
  | cons c t ih =>
    simp only [occursIn, Bool.or_eq_true] at h
    rcases h with h | h
    · simp [occursIn, isPrefixOf_trans hsub h]
    · simp [occursIn, ih h, Bool.or_true]

theorem occursIn_eq_isInfixOf {sep s : List Char} : occursIn sep s = true ↔ sep <:+: s := by
  induction s with
  | nil => simp [occursIn, List.isEmpty_iff, List.infix_nil]
  | cons c t ih =>
    simp [occursIn, List.infix_cons_iff, List.isPrefixOf_iff_prefix, ih]

theorem takeUntil_isPre (sep s : List Char) : takeUntil sep s <+: s := by
  induction s with
  | nil => simp [takeUntil]
  | cons c t ih =>
    by_cases h : sep.isPrefixOf (c :: t) = true
    · simp [takeUntil, h, List.nil_prefix]
    · rw [Bool.not_eq_true] at h
      simp only [takeUntil, h]
      exact List.cons_prefix_cons.mpr ⟨rfl, ih⟩

theorem afterFirst_cons_pos {sep : List Char} {c : Char} {t : List Char}
    (h : sep.isPrefixOf (c :: t) = true) :
    afterFirst sep (c :: t) = (c :: t).drop sep.length := by
  simp [afterFirst, h]

theorem afterFirst_cons_neg {sep : List Char} {c : Char} {t : List Char}
    (h : sep.isPrefixOf (c :: t) = false) :
    afterFirst sep (c :: t) = afterFirst sep t := by
  simp [afterFirst, h]

theorem takeUntil_cons_pos {sep : List Char} {c : Char} {t : List Char}
    (h : sep.isPrefixOf (c :: t) = true) :
    takeUntil sep (c :: t) = [] := by
  simp [takeUntil, h]

theorem takeUntil_cons_neg {sep : List Char} {c : Char} {t : List Char}
    (h : sep.isPrefixOf (c :: t) = false) :
    takeUntil sep (c :: t) = c :: takeUntil sep t := by
  simp [takeUntil, h]

theorem fence3_of_fenceXml {s : List Char} (h : fenceXml.isPrefixOf s = true) :
    fence3.isPrefixOf s = true :=
  isPrefixOf_trans (by decide) h

/-- The character `x` is not a backtick. -/
theorem x_beq_tick : ('x' == tick) = false := by decide

/-- An occurrence of `` ```xml `` cannot start strictly inside a prologue
that contains no `` ``` ``: its fourth character would have to be both `x`
and a backtick. -/
theorem fenceXml_no_straddle {c : Char} {p rest : List Char}
    (h1 : fence3.isPrefixOf (c :: p) = false) :
    fenceXml.isPrefixOf ((c :: p) ++ fenceXml ++ rest) = false := by
  match p with
  | [] =>
    show fenceXml.isPrefixOf
      (c :: tick :: tick :: tick :: 'x' :: 'm' :: 'l' :: rest) = false
    simp [fenceXml, List.isPrefixOf, x_beq_tick]
  | [d] =>
    show fenceXml.isPrefixOf
      (c :: d :: tick :: tick :: tick :: 'x' :: 'm' :: 'l' :: rest) = false
    simp [fenceXml, List.isPrefixOf, x_beq_tick]
  | d :: e :: p' =>
    show fenceXml.isPrefixOf
      (c :: d :: e :: (p' ++ fenceXml ++ rest)) = false
    have h1' : (tick == c && (tick == d && tick == e)) = false := by
      simpa [fence3, List.isPrefixOf] using h1
    simp only [fenceXml, List.isPrefixOf, Bool.and_eq_false_iff] at h1' ⊢
    tauto

/-- When the fence `` ``` `` occurs at the very start of the tail of a
nonempty `content`-block that itself contains no premature fence
(`occursIn fence3 (content ++ [tick, tick]) = false` says `content` has no
`` ``` `` and does not end in a backtick), the fence must already occur in
`content ++ [tick, tick]`. -/
theorem fence3_pre_occurs {content rest : List Char} (hne : content ≠ [])
    (h : fence3.isPrefixOf (content ++ tick :: tick :: tick :: rest) = true) :
    occursIn fence3 (content ++ [tick, tick]) = true := by
  match content with
  | [a] =>
    have ha : tick = a := by
      have := h
      simp only [List.cons_append, List.nil_append, fence3,
        List.isPrefixOf, Bool.and_eq_true, beq_iff_eq] at this
      exact this.1
    subst ha
    decide
  | [a, b] =>
    have hab : tick = a ∧ tick = b := by
      have := h
      simp only [List.cons_append, List.nil_append, fence3,
        List.isPrefixOf, Bool.and_eq_true, beq_iff_eq] at this
      exact ⟨this.1, this.2.1⟩
    obtain ⟨ha, hb⟩ := hab
    subst ha; subst hb
    decide
  | a :: b :: e :: p' =>
    have habe : tick = a ∧ tick = b ∧ tick = e := by
      have := h
      simp only [List.cons_append, fence3,
        List.isPrefixOf, Bool.and_eq_true, beq_iff_eq] at this
      exact ⟨this.1, this.2.1, this.2.2.1⟩
    obtain ⟨ha, hb, he⟩ := habe
    subst ha; subst hb; subst he
    simp [occursIn, List.isPrefixOf, fence3]

/-- Python `reply.split("```xml")[1]` drops exactly the prologue and the
opening fence when the prologue contains no `` ``` ``. -/
theorem afterFirst_open (rest : List Char) :
    ∀ pre, occursIn fence3 pre = false →
      afterFirst fenceXml (pre ++ fenceXml ++ rest) = rest := by
  intro pre
  induction pre with
  | nil =>
    intro _
    have e1 : ([] : List Char) ++ fenceXml ++ rest =
        tick :: tick :: tick :: 'x' :: 'm' :: 'l' :: rest := rfl
    rw [e1, afterFirst_cons_pos (by simp [fenceXml, List.isPrefixOf])]
    rfl
  | cons c p ih =>
    intro h
    obtain ⟨hh, ht⟩ := occursIn_cons_false h
    have hstr := @fenceXml_no_straddle c p rest hh
    have e1 : (c :: p) ++ fenceXml ++ rest = c :: (p ++ fenceXml ++ rest) := by simp
    rw [e1] at hstr
    rw [e1, afterFirst_cons_neg hstr]
    exact ih ht

/-- Python `t.split("```xml")[1].split("```")[0]` applied to
`content + "```" + post` recovers exactly `content`, provided `content`
contains no premature fence and `post` does not begin with a backtick. -/
theorem extract_fenced (post : List Char) (hpost : [tick].isPrefixOf post = false) :
    ∀ content, occursIn fence3 (content ++ [tick, tick]) = false →
      takeUntil fence3 (takeUntil fenceXml (content ++ fence3 ++ post)) = content := by
  intro content
  induction content with
  | nil =>
    intro _
    have e1 : ([] : List Char) ++ fence3 ++ post = tick :: tick :: tick :: post := rfl
    rw [e1]
    by_cases hx : fenceXml.isPrefixOf (tick :: tick :: tick :: post) = true
    · rw [takeUntil_cons_pos hx]
      rfl
    · rw [Bool.not_eq_true] at hx
      rw [takeUntil_cons_neg hx]
      have h2 : fenceXml.isPrefixOf (tick :: tick :: post) = false := by
        by_contra hcon
        rw [Bool.not_eq_false] at hcon
        have : List.isPrefixOf [tick, 'x', 'm', 'l'] post = true := by
          simpa [fenceXml, List.isPrefixOf] using hcon
        have : [tick].isPrefixOf post = true := isPrefixOf_trans (by decide) this
        simp [this] at hpost
      rw [takeUntil_cons_neg h2]
      have h3 : fenceXml.isPrefixOf (tick :: post) = false := by
        by_contra hcon
        rw [Bool.not_eq_false] at hcon
        have : List.isPrefixOf [tick, tick, 'x', 'm', 'l'] post = true := by
          simpa [fenceXml, List.isPrefixOf] using hcon
        have : [tick].isPrefixOf post = true := isPrefixOf_trans (by decide) this
        simp [this] at hpost
      rw [takeUntil_cons_neg h3]
      rw [takeUntil_cons_pos (by simp [fence3, List.isPrefixOf])]
  | cons a content' ih =>
    intro hc
    have hcshape : (a :: content') ++ [tick, tick] = a :: (content' ++ [tick, tick]) := by simp
    have hc' : occursIn fence3 (content' ++ [tick, tick]) = false := by
      rw [hcshape] at hc
      exact (occursIn_cons_false hc).2
    have eshape : (a :: content') ++ fence3 ++ post =
        (a :: content') ++ tick :: tick :: tick :: post := by
      simp [fence3, List.append_assoc]
    have hfx : fenceXml.isPrefixOf ((a :: content') ++ fence3 ++ post) = false := by
      by_contra hcon
      rw [Bool.not_eq_false] at hcon
      have h3 : fence3.isPrefixOf ((a :: content') ++ tick :: tick :: tick :: post) = true := by
        rw [← eshape]
        exact fence3_of_fenceXml hcon
      have := fence3_pre_occurs (by simp) h3
      rw [this] at hc
      exact absurd hc (by decide)
    have e1 : (a :: content') ++ fence3 ++ post = a :: (content' ++ fence3 ++ post) := by simp
    rw [e1] at hfx
    rw [e1, takeUntil_cons_neg hfx]
    have hpre : takeUntil fenceXml (content' ++ fence3 ++ post) <+:
        content' ++ fence3 ++ post := takeUntil_isPre _ _
    have hf3 : fence3.isPrefixOf
        (a :: takeUntil fenceXml (content' ++ fence3 ++ post)) = false := by
      by_contra hcon
      rw [Bool.not_eq_false] at hcon
      have hbig : fence3 <+: a :: (content' ++ fence3 ++ post) :=
        ( List.isPrefixOf_iff_prefix.mp hcon).trans (List.cons_prefix_cons.mpr ⟨rfl, hpre⟩)
      have hbig' : fence3.isPrefixOf ((a :: content') ++ tick :: tick :: tick :: post) = true := by
        rw [← eshape, e1]
        exact List.isPrefixOf_iff_prefix.mpr hbig
      have := fence3_pre_occurs (by simp) hbig'
      rw [this] at hc
      exact absurd hc (by decide)
    rw [takeUntil_cons_neg hf3, ih hc']

theorem pyStrip_within (s : List Char) : pyStrip s <:+: s := by
  have h4 : ((s.dropWhile isPySpace).reverse.dropWhile isPySpace).reverse <+:
      (s.dropWhile isPySpace).reverse.reverse :=
    List.reverse_prefix.mpr (List.dropWhile_suffix isPySpace)
  rw [List.reverse_reverse] at h4
  exact h4.isInfix.trans (List.dropWhile_suffix isPySpace).isInfix

theorem no_fence3_no_fenceXml {s : List Char} (h : occursIn fence3 s = false) :
    occursIn fenceXml s = false := by
  cases hx : occursIn fenceXml s with
  | false => rfl
  | true =>
    rw [occursIn_mono (by decide) hx] at h
    exact absurd h (by decide)

/-- The strip step of `_clean_xml_response` cannot destroy a leading `<?xml`:
no character of `<?xml` is whitespace. -/
theorem xmlHead_pyStrip {s : List Char} (h : xmlHead.isPrefixOf s = true) :
    xmlHead.isPrefixOf (pyStrip s) = true := by
  obtain ⟨r, hr⟩ := List.isPrefixOf_iff_prefix.mp h
  subst hr
  have hx1 : List.dropWhile isPySpace xmlHead = xmlHead := by decide
  have hx2 : xmlHead.isEmpty = false := by decide
  have e1 : (xmlHead ++ r).dropWhile isPySpace = xmlHead ++ r := by
    rw [List.dropWhile_append, hx1]
    simp [hx2]
  unfold pyStrip
  rw [e1, List.reverse_append, List.dropWhile_append]
  by_cases hA : ((r.reverse.dropWhile isPySpace).isEmpty = true)
  · rw [if_pos hA]
    have hx3 : List.dropWhile isPySpace xmlHead.reverse = xmlHead.reverse := by decide
    rw [hx3, List.reverse_reverse]
    decide
  · rw [if_neg hA, List.reverse_append, List.reverse_reverse]
    exact isPrefixOf_append_right _ (by decide)

/-! ## Claims about `_clean_xml_response` -/

/-- C3: for a reply wrapped in ```` ```xml ... ``` ```` fences — prologue
`pre` containing no fence token, fenced `content` containing no premature
fence token (no `` ``` `` inside and no trailing backticks, stated as
`occursIn fence3 (content ++ [tick, tick]) = false`), epilogue `post` not
starting with a backtick — the fence-extraction step of
`_clean_xml_response` yields exactly `content`: no text before the opening
fence or after the closing fence is retained, and the whole function
returns `content` processed only by the final strip/declaration stage. -/
theorem claim_C3 (pre content post : List Char)
    (h1 : occursIn fence3 pre = false)
    (h2 : occursIn fence3 (content ++ [tick, tick]) = false)
    (h3 : [tick].isPrefixOf post = false) :
    fenceStage (pre ++ fenceXml ++ content ++ fence3 ++ post) = content ∧
    clean_xml_response (pre ++ fenceXml ++ content ++ fence3 ++ post) =
      finishStage content := by
  have hocc : occursIn fenceXml (pre ++ fenceXml ++ content ++ fence3 ++ post) = true := by
    have := occursIn_sandwich fenceXml pre (content ++ fence3 ++ post)
    simpa [List.append_assoc] using this
  have haf : afterFirst fenceXml (pre ++ fenceXml ++ content ++ fence3 ++ post) =
      content ++ fence3 ++ post := by
    have := afterFirst_open (content ++ fence3 ++ post) pre h1
    simpa [List.append_assoc] using this
  have hext := extract_fenced post h3 content h2
  have hstage : fenceStage (pre ++ fenceXml ++ content ++ fence3 ++ post) = content := by
    unfold fenceStage
    rw [if_pos hocc, haf]
    exact hext
  refine ⟨hstage, ?_⟩
  unfold clean_xml_response
  rw [hstage]

/-- Witness for C3 at a concrete fenced reply. -/
theorem claim_C3_witness :
    occursIn fence3 (sData "Sure! Here is the model:\n") = false ∧
    occursIn fence3 (sData "\n<?xml version=\"1.0\"?>\n<defs/>\n" ++ [tick, tick]) = false ∧
    [tick].isPrefixOf (sData "\nLet me know.") = false ∧
    fenceStage (sData "Sure! Here is the model:\n" ++ fenceXml ++
        sData "\n<?xml version=\"1.0\"?>\n<defs/>\n" ++ fence3 ++ sData "\nLet me know.") =
      sData "\n<?xml version=\"1.0\"?>\n<defs/>\n" :=
  ⟨by decide, by decide, by decide,
    (claim_C3 (sData "Sure! Here is the model:\n")
      (sData "\n<?xml version=\"1.0\"?>\n<defs/>\n")
      (sData "\nLet me know.") (by decide) (by decide) (by decide)).1⟩

/-- Counterexample to C4 as stated: for the fenceless, declarationless
reply `" hello "` the result is not the declaration plus the original
text — the original text gets whitespace-stripped first. -/
theorem claim_C4_cex :
    clean_xml_response (sData " hello ") ≠ xmlDecl ++ '\n' :: sData " hello " := by
  decide

/-- C4 (amended): for a reply with no code fences and no occurrence of
`<?xml`, `_clean_xml_response` returns the canonical XML declaration, a
newline, and the reply text stripped of leading/trailing whitespace. -/
theorem claim_C4 (reply : List Char)
    (h1 : occursIn fence3 reply = false)
    (h2 : occursIn xmlHead reply = false) :
    clean_xml_response reply = xmlDecl ++ '\n' :: pyStrip reply := by
  have hx : occursIn fenceXml reply = false := no_fence3_no_fenceXml h1
  have hhead : xmlHead.isPrefixOf (pyStrip reply) = false := by
    cases hp : xmlHead.isPrefixOf (pyStrip reply) with
    | false => rfl
    | true =>
      have hinf : xmlHead <:+: reply :=
        (( List.isPrefixOf_iff_prefix.mp hp).isInfix).trans (pyStrip_within reply)
      rw [occursIn_eq_isInfixOf.mpr hinf] at h2
      exact absurd h2 (by decide)
  have hstage : fenceStage reply = reply := by
    unfold fenceStage
    rw [if_neg (by simp [hx]), if_neg (by simp [h1])]
  unfold clean_xml_response
  rw [hstage]
  unfold finishStage
  rw [if_neg (by simp [hhead])]

/-- Witness for C4 at a concrete fenceless reply with surrounding blanks. -/
theorem claim_C4_witness :
    clean_xml_response (sData "  <bpmn/>  ") =
      xmlDecl ++ '\n' :: pyStrip (sData "  <bpmn/>  ") :=
  claim_C4 (sData "  <bpmn/>  ") (by decide) (by decide)

/-- Counterexample to C5 as stated: a reply that starts with `<?xml` but
also contains a fenced block is not merely trimmed — the fence branch
fires first and extracts the fenced payload. -/
theorem claim_C5_cex :
    xmlHead.isPrefixOf (sData "<?xml version=\"1.0\"?>\n```xml\n<a/>\n```") = true ∧
    clean_xml_response (sData "<?xml version=\"1.0\"?>\n```xml\n<a/>\n```") ≠
      pyStrip (sData "<?xml version=\"1.0\"?>\n```xml\n<a/>\n```") ∧
    clean_xml_response (sData "<?xml version=\"1.0\"?>\n```xml\n<a/>\n```") ≠
      sData "<?xml version=\"1.0\"?>\n```xml\n<a/>\n```" := by
  refine ⟨by decide, by decide, by decide⟩

/-- C5 (amended): for a reply that starts with `<?xml` and contains no
code-fence token, `_clean_xml_response` is the identity up to
leading/trailing whitespace stripping. -/
theorem claim_C5 (reply : List Char)
    (h1 : xmlHead.isPrefixOf reply = true)
    (h2 : occursIn fence3 reply = false) :
    clean_xml_response reply = pyStrip reply := by
  have hx : occursIn fenceXml reply = false := no_fence3_no_fenceXml h2
  have hh : xmlHead.isPrefixOf (pyStrip reply) = true := xmlHead_pyStrip h1
  have hstage : fenceStage reply = reply := by
    unfold fenceStage
    rw [if_neg (by simp [hx]), if_neg (by simp [h2])]
  unfold clean_xml_response
  rw [hstage]
  unfold finishStage
  rw [if_pos hh]

/-- Witness for C5 at a concrete declaration-led reply. -/
theorem claim_C5_witness :
    clean_xml_response (sData "<?xml version=\"1.0\"?>\n<x/>\n  ") =
      pyStrip (sData "<?xml version=\"1.0\"?>\n<x/>\n  ") :=
  claim_C5 (sData "<?xml version=\"1.0\"?>\n<x/>\n  ") (by decide) (by decide)

/-! ## Claim about prompt construction (C6) -/

/-- C6: for every description and empty custom instructions, the prompt of
`generate_bpmn_from_text` contains the fixed instructional template (both
the part before and the part after the description slot), contains the
description verbatim, and ends with the directive
`Return only the XML code without any explanation.` followed only by the
template's closing whitespace. -/
theorem claim_C6 (description : List Char) :
    occursIn promptHead (build_prompt description []) = true ∧
    occursIn promptMid (build_prompt description []) = true ∧
    occursIn description (build_prompt description []) = true ∧
    ∃ q, build_prompt description [] = q ++ directive ++ sData "\n        " ∧
      (sData "\n        ").all isPySpace = true := by
  have hb : build_prompt description [] =
      promptHead ++ description ++ promptMid ++ tailPlain := by
    simp [build_prompt, base_prompt]
  refine ⟨?_, ?_, ?_, ?_⟩
  · rw [hb]
    have := occursIn_sandwich promptHead [] (description ++ promptMid ++ tailPlain)
    simpa [List.append_assoc] using this
  · rw [hb]
    have := occursIn_sandwich promptMid (promptHead ++ description) tailPlain
    simpa [List.append_assoc] using this
  · rw [hb]
    have := occursIn_sandwich description promptHead (promptMid ++ tailPlain)
    simpa [List.append_assoc] using this
  · refine ⟨promptHead ++ description ++ promptMid ++ sData "\n        \n        ", ?_, by decide⟩
    rw [hb]
    have htail : tailPlain = sData "\n        \n        " ++ directive ++ sData "\n        " := by
      decide
    rw [htail]
    simp [List.append_assoc]

/-! ## Claims about the provider dispatch (C1, C2, C9) -/

theorem dispatch_openai (env : AIEnv) (m p : List Char) (h : env.openaiAvailable = true) :
    get_ai_response_body env (sData "OpenAI") m p =
      (match env.openaiCall m p with
        | .error e => .error e
        | .ok r =>
          match r.choices with
          | [] => .error indexError
          | c :: _ => .ok c.message.content,
       [openaiRecord m p]) := by
  unfold get_ai_response_body
  rw [if_pos ⟨rfl, h⟩]

theorem dispatch_anthropic (env : AIEnv) (m p : List Char) (h : env.anthropicAvailable = true) :
    get_ai_response_body env (sData "Anthropic") m p =
      (match env.anthropicCall m p with
        | .error e => .error e
        | .ok r =>
          match r.content with
          | [] => .error indexError
          | b :: _ => .ok b.text,
       [anthropicRecord m p]) := by
  unfold get_ai_response_body
  rw [if_neg (fun hcon => absurd hcon.1 (by decide)), if_pos ⟨rfl, h⟩]

theorem dispatch_google (env : AIEnv) (m p : List Char) (h : env.googleAvailable = true) :
    get_ai_response_body env (sData "Google") m p =
      (match env.googleCall p with
        | .error e => .error e
        | .ok r => .ok r.text,
       [googleRecord p]) := by
  unfold get_ai_response_body
  rw [if_neg (fun hcon => absurd hcon.1 (by decide)),
    if_neg (fun hcon => absurd hcon.1 (by decide)), if_pos ⟨rfl, h⟩]

theorem dispatch_cohere (env : AIEnv) (m p : List Char) (h : env.cohereAvailable = true) :
    get_ai_response_body env (sData "Cohere") m p =
      (match env.cohereCall m p with
        | .error e => .error e
        | .ok r =>
          match r.generations with
          | [] => .error indexError
          | g :: _ => .ok g.text,
       [cohereRecord m p]) := by
  unfold get_ai_response_body
  rw [if_neg (fun hcon => absurd hcon.1 (by decide)),
    if_neg (fun hcon => absurd hcon.1 (by decide)),
    if_neg (fun hcon => absurd hcon.1 (by decide)), if_pos ⟨rfl, h⟩]

theorem calls_openai (env : AIEnv) (m p : List Char) (h : env.openaiAvailable = true) :
    (get_ai_response env (sData "OpenAI") m p).calls = [openaiRecord m p] := by
  unfold get_ai_response
  rw [dispatch_openai env m p h]
  cases env.openaiCall m p with
  | error e => rfl
  | ok r =>
    cases hch : r.choices with
    | nil => simp only [hch]
    | cons c rest => simp only [hch]

theorem calls_anthropic (env : AIEnv) (m p : List Char) (h : env.anthropicAvailable = true) :
    (get_ai_response env (sData "Anthropic") m p).calls = [anthropicRecord m p] := by
  unfold get_ai_response
  rw [dispatch_anthropic env m p h]
  cases env.anthropicCall m p with
  | error e => rfl
  | ok r =>
    cases hch : r.content with
    | nil => simp only [hch]
    | cons b rest => simp only [hch]

theorem calls_google (env : AIEnv) (m p : List Char) (h : env.googleAvailable = true) :
    (get_ai_response env (sData "Google") m p).calls = [googleRecord p] := by
  unfold get_ai_response
  rw [dispatch_google env m p h]
  cases env.googleCall p with
  | error e => rfl
  | ok r => rfl

theorem calls_cohere (env : AIEnv) (m p : List Char) (h : env.cohereAvailable = true) :
    (get_ai_response env (sData "Cohere") m p).calls = [cohereRecord m p] := by
  unfold get_ai_response
  rw [dispatch_cohere env m p h]
  cases env.cohereCall m p with
  | error e => rfl
  | ok r =>
    cases hch : r.generations with
    | nil => simp only [hch]
    | cons g rest => simp only [hch]

theorem result_openai (env : AIEnv) (m p : List Char) (h : env.openaiAvailable = true)
    (r : OpenAIResponse) (c : OpenAIChoice) (rest : List OpenAIChoice)
    (hc : env.openaiCall m p = .ok r) (hch : r.choices = c :: rest) :
    (get_ai_response env (sData "OpenAI") m p).result = c.message.content := by
  unfold get_ai_response
  rw [dispatch_openai env m p h]
  simp only [hc, hch]

theorem result_anthropic (env : AIEnv) (m p : List Char) (h : env.anthropicAvailable = true)
    (r : AnthropicResponse) (b : AnthropicBlock) (rest : List AnthropicBlock)
    (hc : env.anthropicCall m p = .ok r) (hch : r.content = b :: rest) :
    (get_ai_response env (sData "Anthropic") m p).result = b.text := by
  unfold get_ai_response
  rw [dispatch_anthropic env m p h]
  simp only [hc, hch]

theorem result_google (env : AIEnv) (m p : List Char) (h : env.googleAvailable = true)
    (r : GoogleResponse) (hc : env.googleCall p = .ok r) :
    (get_ai_response env (sData "Google") m p).result = r.text := by
  unfold get_ai_response
  rw [dispatch_google env m p h]
  simp only [hc]

theorem result_cohere (env : AIEnv) (m p : List Char) (h : env.cohereAvailable = true)
    (r : CohereResponse) (g : CohereGeneration) (rest : List CohereGeneration)
    (hc : env.cohereCall m p = .ok r) (hch : r.generations = g :: rest) :
    (get_ai_response env (sData "Cohere") m p).result = g.text := by
  unfold get_ai_response
  rw [dispatch_cohere env m p h]
  simp only [hc, hch]

/-- C2 (amended): with all four vendor libraries importable, each of the
four provider names drives exactly one dispatch branch (the trace is a
single call to that vendor); the OpenAI, Anthropic and Cohere branches
pass `temperature=0.3` and `max_tokens=2000`, but the Google branch passes
neither (it calls `generate_content(prompt)` bare); and each branch
extracts the vendor's primary text field from a successful reply. -/
theorem claim_C2 (env : AIEnv) (m p : List Char)
    (hO : env.openaiAvailable = true) (hA : env.anthropicAvailable = true)
    (hG : env.googleAvailable = true) (hC : env.cohereAvailable = true) :
    ((get_ai_response env (sData "OpenAI") m p).calls = [openaiRecord m p] ∧
     (get_ai_response env (sData "Anthropic") m p).calls = [anthropicRecord m p] ∧
     (get_ai_response env (sData "Google") m p).calls = [googleRecord p] ∧
     (get_ai_response env (sData "Cohere") m p).calls = [cohereRecord m p]) ∧
    ((openaiRecord m p).temperature = some ((3 : ℚ)/10) ∧
     (openaiRecord m p).maxTokens = some 2000 ∧
     (anthropicRecord m p).temperature = some ((3 : ℚ)/10) ∧
     (anthropicRecord m p).maxTokens = some 2000 ∧
     (cohereRecord m p).temperature = some ((3 : ℚ)/10) ∧
     (cohereRecord m p).maxTokens = some 2000) ∧
    ((googleRecord p).temperature = none ∧ (googleRecord p).maxTokens = none) ∧
    ((∀ r c rest, env.openaiCall m p = .ok r → r.choices = c :: rest →
        (get_ai_response env (sData "OpenAI") m p).result = c.message.content) ∧
     (∀ r b rest, env.anthropicCall m p = .ok r → r.content = b :: rest →
        (get_ai_response env (sData "Anthropic") m p).result = b.text) ∧
     (∀ r, env.googleCall p = .ok r →
        (get_ai_response env (sData "Google") m p).result = r.text) ∧
     (∀ r g rest, env.cohereCall m p = .ok r → r.generations = g :: rest →
        (get_ai_response env (sData "Cohere") m p).result = g.text)) := by
  refine ⟨⟨calls_openai env m p hO, calls_anthropic env m p hA,
      calls_google env m p hG, calls_cohere env m p hC⟩,
    ⟨rfl, rfl, rfl, rfl, rfl, rfl⟩, ⟨rfl, rfl⟩,
    ⟨fun r c rest hc hch => result_openai env m p hO r c rest hc hch,
     fun r b rest hc hch => result_anthropic env m p hA r b rest hc hch,
     fun r hc => result_google env m p hG r hc,
     fun r g rest hc hch => result_cohere env m p hC r g rest hc hch⟩⟩

/-- Environment in which every vendor library is importable and every
vendor call raises. -/
def envErr : AIEnv :=
  ⟨true, true, true, true,
   fun _ _ => .error (sData "boom"),
   fun _ _ => .error (sData "boom"),
   fun _ => .error (sData "boom"),
   fun _ _ => .error (sData "boom")⟩

/-- Environment in which every vendor library is importable and every
vendor call succeeds with a fixed reply. -/
def envOk : AIEnv :=
  ⟨true, true, true, true,
   fun _ _ => .ok ⟨[⟨⟨sData "openai says hi"⟩⟩]⟩,
   fun _ _ => .ok ⟨[⟨sData "anthropic says hi"⟩]⟩,
   fun _ => .ok ⟨sData "google says hi"⟩,
   fun _ _ => .ok ⟨[⟨sData "cohere says hi"⟩]⟩⟩

/-- Counterexample to C2 as stated: the Google branch runs (one call is
traced) but that call carries neither `temperature=0.3` nor
`max_tokens=2000`. -/
theorem claim_C2_cex :
    (get_ai_response envOk (sData "Google") (sData "gemini-pro") (sData "prompt")).calls =
      [googleRecord (sData "prompt")] ∧
    ¬((googleRecord (sData "prompt")).temperature = some ((3 : ℚ)/10) ∧
      (googleRecord (sData "prompt")).maxTokens = some 2000) := by
  constructor
  · exact calls_google envOk (sData "gemini-pro") (sData "prompt") rfl
  · intro hcon
    exact absurd hcon.1 (by simp [googleRecord])

/-- Witness for C2 at the concrete all-available environment. -/
theorem claim_C2_witness :
    (get_ai_response envOk (sData "Google") (sData "gemini-pro") (sData "p")).calls =
      [googleRecord (sData "p")] ∧
    (get_ai_response envOk (sData "Google") (sData "gemini-pro") (sData "p")).result =
      sData "google says hi" := by
  have H := claim_C2 envOk (sData "gemini-pro") (sData "p") rfl rfl rfl rfl
  exact ⟨H.1.2.2.1, H.2.2.2.2.2.1 ⟨sData "google says hi"⟩ rfl⟩

/-- C1 (amended): whenever the dispatched vendor call raises, the
exception is caught, an error message is surfaced via `st.error`,
`_get_ai_response` returns the empty string, and
`generate_bpmn_from_text` still reports status `"success"` — with
`bpmn_xml` equal to the bare XML declaration plus a newline (the cleaning
step prepends the declaration to the empty response), not the empty
string. -/
theorem claim_C1 (env : AIEnv) (provider model description custom_instructions : List Char)
    (h : ∃ e, (get_ai_response_body env provider model
        (build_prompt description custom_instructions)).1 = Except.error e) :
    (get_ai_response env provider model
        (build_prompt description custom_instructions)).result = [] ∧
    (get_ai_response env provider model
        (build_prompt description custom_instructions)).errors ≠ [] ∧
    (generate_bpmn_from_text env provider model description custom_instructions).status =
      sData "success" ∧
    (generate_bpmn_from_text env provider model description custom_instructions).bpmn_xml =
      xmlDecl ++ ['\n'] := by
  obtain ⟨e, he⟩ := h
  cases hb : get_ai_response_body env provider model
      (build_prompt description custom_instructions) with
  | mk fst snd =>
    rw [hb] at he
    simp only at he
    subst he
    refine ⟨?_, ?_, ?_, ?_⟩
    · unfold get_ai_response
      rw [hb]
    · unfold get_ai_response
      rw [hb]
      simp
    · unfold generate_bpmn_from_text get_ai_response
      rw [hb]
    · unfold generate_bpmn_from_text get_ai_response
      rw [hb]
      show clean_xml_response [] = xmlDecl ++ ['\n']
      decide

/-- Counterexample to C1 as stated: with every vendor call raising, the
error is surfaced, the response is empty and the status is `"success"` —
but the returned BPMN XML is not the empty payload. -/
theorem claim_C1_cex :
    (get_ai_response envErr (sData "OpenAI") (sData "gpt-4o")
        (build_prompt (sData "d") [])).result = [] ∧
    (get_ai_response envErr (sData "OpenAI") (sData "gpt-4o")
        (build_prompt (sData "d") [])).errors ≠ [] ∧
    (generate_bpmn_from_text envErr (sData "OpenAI") (sData "gpt-4o")
        (sData "d") []).status = sData "success" ∧
    (generate_bpmn_from_text envErr (sData "OpenAI") (sData "gpt-4o")
        (sData "d") []).bpmn_xml ≠ [] := by
  refine ⟨by decide, by decide, by decide, by decide⟩

/-- Witness for C1 at the concrete always-raising environment. -/
theorem claim_C1_witness :
    (get_ai_response envErr (sData "OpenAI") (sData "gpt-4o")
        (build_prompt (sData "a small order process") [])).result = [] ∧
    (generate_bpmn_from_text envErr (sData "OpenAI") (sData "gpt-4o")
        (sData "a small order process") []).status = sData "success" ∧
    (generate_bpmn_from_text envErr (sData "OpenAI") (sData "gpt-4o")
        (sData "a small order process") []).bpmn_xml = xmlDecl ++ ['\n'] := by
  have H := claim_C1 envErr (sData "OpenAI") (sData "gpt-4o")
    (sData "a small order process") [] ⟨sData "boom", rfl⟩
  exact ⟨H.1, H.2.2.1, H.2.2.2⟩

/-- C9: for a provider outside the four dispatch keys (or whose library is
not importable), `_get_ai_response` raises nothing, issues no vendor call,
and returns the sentinel `Provider not properly configured`;
`generate_bpmn_from_text` then reports success with the XML declaration, a
newline and the sentinel as its `bpmn_xml`. -/
theorem claim_C9 (env : AIEnv) (provider model description custom_instructions : List Char)
    (hO : ¬(provider = sData "OpenAI" ∧ env.openaiAvailable = true))
    (hA : ¬(provider = sData "Anthropic" ∧ env.anthropicAvailable = true))
    (hG : ¬(provider = sData "Google" ∧ env.googleAvailable = true))
    (hC : ¬(provider = sData "Cohere" ∧ env.cohereAvailable = true)) :
    get_ai_response env provider model (build_prompt description custom_instructions) =
      ⟨sData "Provider not properly configured", [], []⟩ ∧
    (generate_bpmn_from_text env provider model description custom_instructions).status =
      sData "success" ∧
    (generate_bpmn_from_text env provider model description custom_instructions).bpmn_xml =
      xmlDecl ++ '\n' :: sData "Provider not properly configured" := by
  have hbody : get_ai_response_body env provider model
      (build_prompt description custom_instructions) =
      (.ok (sData "Provider not properly configured"), []) := by
    unfold get_ai_response_body
    rw [if_neg hO, if_neg hA, if_neg hG, if_neg hC]
  refine ⟨?_, ?_, ?_⟩
  · unfold get_ai_response
    rw [hbody]
  · unfold generate_bpmn_from_text get_ai_response
    rw [hbody]
  · unfold generate_bpmn_from_text get_ai_response
    rw [hbody]
    show clean_xml_response (sData "Provider not properly configured") =
      xmlDecl ++ '\n' :: sData "Provider not properly configured"
    decide

/-- Witness for C9 at a provider name outside the dispatch set. -/
theorem claim_C9_witness :
    get_ai_response envOk (sData "Mistral") (sData "m") (build_prompt (sData "d") []) =
      ⟨sData "Provider not properly configured", [], []⟩ ∧
    (generate_bpmn_from_text envOk (sData "Mistral") (sData "m") (sData "d") []).bpmn_xml =
      xmlDecl ++ '\n' :: sData "Provider not properly configured" := by
  have H := claim_C9 envOk (sData "Mistral") (sData "m") (sData "d") []
    (fun hcon => absurd hcon.1 (by decide))
    (fun hcon => absurd hcon.1 (by decide))
    (fun hcon => absurd hcon.1 (by decide))
    (fun hcon => absurd hcon.1 (by decide))
  exact ⟨H.1, H.2.2⟩

/-! ## Claims about event-log analysis (C7, C10) -/

theorem analyze_unsupported (env : Pm4pyEnv) (path : List Char)
    (h1 : env.available = true)
    (h2 : pyEndsWith (sData ".xes") path = false)
    (h3 : pyEndsWith (sData ".csv") path = false) :
    analyze_event_log env path =
      ⟨sData "error", sData "Unsupported file format", none, none, none, []⟩ := by
  unfold analyze_event_log
  rw [if_neg (fun hc => hc h1), if_neg (by simp [h2]), if_neg (by simp [h3])]

theorem gz_not_xes {path : List Char} (h : pyEndsWith (sData ".gz") path = true) :
    pyEndsWith (sData ".xes") path = false := by
  cases hx : pyEndsWith (sData ".xes") path with
  | false => rfl
  | true =>
    exfalso
    unfold pyEndsWith List.isSuffixOf at h hx
    rw [show (sData ".gz").reverse = ['z', 'g', '.'] from by decide] at h
    rw [show (sData ".xes").reverse = ['s', 'e', 'x', '.'] from by decide] at hx
    cases hr : path.reverse with
    | nil =>
      rw [hr] at h
      simp [List.isPrefixOf] at h
    | cons c t =>
      rw [hr] at h hx
      simp only [List.isPrefixOf, Bool.and_eq_true, beq_iff_eq] at h hx
      exact absurd (h.1.trans hx.1.symm) (by decide)

theorem gz_not_csv {path : List Char} (h : pyEndsWith (sData ".gz") path = true) :
    pyEndsWith (sData ".csv") path = false := by
  cases hx : pyEndsWith (sData ".csv") path with
  | false => rfl
  | true =>
    exfalso
    unfold pyEndsWith List.isSuffixOf at h hx
    rw [show (sData ".gz").reverse = ['z', 'g', '.'] from by decide] at h
    rw [show (sData ".csv").reverse = ['v', 's', 'c', '.'] from by decide] at hx
    cases hr : path.reverse with
    | nil =>
      rw [hr] at h
      simp [List.isPrefixOf] at h
    | cons c t =>
      rw [hr] at h hx
      simp only [List.isPrefixOf, Bool.and_eq_true, beq_iff_eq] at h hx
      exact absurd (h.1.trans hx.1.symm) (by decide)

/-- C7: with pm4py importable, a file path ending in neither `.xes` nor
`.csv` makes `analyze_event_log` return status `error` with message
`Unsupported file format`, and no pm4py call (in particular no discovery
call) is issued. -/
theorem claim_C7 (env : Pm4pyEnv) (path : List Char)
    (h1 : env.available = true)
    (h2 : pyEndsWith (sData ".xes") path = false)
    (h3 : pyEndsWith (sData ".csv") path = false) :
    (analyze_event_log env path).status = sData "error" ∧
    (analyze_event_log env path).message = sData "Unsupported file format" ∧
    (analyze_event_log env path).calls = [] := by
  rw [analyze_unsupported env path h1 h2 h3]
  exact ⟨rfl, rfl, rfl⟩

/-- A concrete pm4py environment in which every library call succeeds. -/
def envPm : Pm4pyEnv :=
  ⟨true, fun _ => .ok [[1], [2, 3]], fun _ => .ok [[1]], fun _ => .ok 0, fun _ => .ok 0⟩

/-- Witness for C7 at the unsupported path `log.txt`. -/
theorem claim_C7_witness :
    (analyze_event_log envPm (sData "log.txt")).status = sData "error" ∧
    (analyze_event_log envPm (sData "log.txt")).message = sData "Unsupported file format" ∧
    (analyze_event_log envPm (sData "log.txt")).calls = [] :=
  claim_C7 envPm (sData "log.txt") rfl (by decide) (by decide)

/-- C10: `.gz` is listed among the accepted upload types of the event-log
uploader, yet every path ending in `.gz` is rejected by
`analyze_event_log` with `Unsupported file format` before any pm4py
reader or discovery call is issued. -/
theorem claim_C10 (env : Pm4pyEnv) (path : List Char)
    (h1 : env.available = true)
    (h2 : pyEndsWith (sData ".gz") path = true) :
    sData "gz" ∈ event_log_upload_types ∧
    analyze_event_log env path =
      ⟨sData "error", sData "Unsupported file format", none, none, none, []⟩ :=
  ⟨by simp [event_log_upload_types],
   analyze_unsupported env path h1 (gz_not_xes h2) (gz_not_csv h2)⟩

/-- Witness for C10 at the accepted-but-unanalyzable path `log.xes.gz`. -/
theorem claim_C10_witness :
    sData "gz" ∈ event_log_upload_types ∧
    analyze_event_log envPm (sData "log.xes.gz") =
      ⟨sData "error", sData "Unsupported file format", none, none, none, []⟩ :=
  claim_C10 envPm (sData "log.xes.gz") rfl (by decide)

/-! ## Claim about the authentication gate (C8) -/

/-- C8: from an unauthenticated session, a submitted login form
authenticates the session iff username and password both match the
configured pair (and triggers the rerun); any other submitted pair leaves
the session unauthenticated, shows the error and returns `False`; an
already-authenticated session is returned `True` unchanged (so the
transition can only happen once); and with `ENABLE_AUTH` false the gate
passes unconditionally. -/
theorem claim_C8 (cfg : AuthConfig) (st : SessionState) (form : LoginForm)
    (h1 : st.passwordCorrect = false) (h2 : form.submitted = true) :
    ((check_password cfg st form).state.passwordCorrect = true ↔
      (form.username = cfg.authUsername ∧ form.password = cfg.authPassword)) ∧
    ((check_password cfg st form).rerun = true ↔
      (form.username = cfg.authUsername ∧ form.password = cfg.authPassword)) ∧
    (¬(form.username = cfg.authUsername ∧ form.password = cfg.authPassword) →
      (check_password cfg st form).errorShown = true ∧
      (check_password cfg st form).returnValue = false ∧
      (check_password cfg st form).state = st) ∧
    (∀ g : LoginForm, check_password cfg ⟨true⟩ g = ⟨true, ⟨true⟩, false, false⟩) ∧
    (cfg.enableAuth = false → ∀ (t : SessionState) (g : LoginForm),
      gate_passes cfg t g = true) := by
  have hcp : check_password cfg st form =
      if form.username = cfg.authUsername ∧ form.password = cfg.authPassword then
        ⟨false, ⟨true⟩, false, true⟩
      else
        ⟨false, st, true, false⟩ := by
    unfold check_password
    rw [if_neg (by simp [h1]), if_pos h2]
  by_cases hm : form.username = cfg.authUsername ∧ form.password = cfg.authPassword
  · rw [hcp, if_pos hm]
    refine ⟨by simp [hm], by simp [hm], fun hcon => absurd hm hcon, ?_, ?_⟩
    · intro g
      rfl
    · intro hE t g
      simp [gate_passes, hE]
  · rw [hcp, if_neg hm]
    refine ⟨by simp [h1, hm], by simp [hm], fun _ => ⟨rfl, rfl, rfl⟩, ?_, ?_⟩
    · intro g
      rfl
    · intro hE t g
      simp [gate_passes, hE]

/-- The default configuration of src/app.py lines 7-9. -/
def cfgW : AuthConfig := ⟨sData "admin", sData "changeme", true⟩

/-- Witness for C8: the matching pair authenticates, a wrong pair shows
the error. -/
theorem claim_C8_witness :
    (check_password cfgW ⟨false⟩
        ⟨true, sData "admin", sData "changeme"⟩).state.passwordCorrect = true ∧
    (check_password cfgW ⟨false⟩ ⟨true, sData "admin", sData "wrong"⟩).errorShown = true := by
  have H1 := claim_C8 cfgW ⟨false⟩ ⟨true, sData "admin", sData "changeme"⟩ rfl rfl
  have H2 := claim_C8 cfgW ⟨false⟩ ⟨true, sData "admin", sData "wrong"⟩ rfl rfl
  exact ⟨H1.1.mpr ⟨rfl, rfl⟩,
    (H2.2.2.1 (fun hcon => absurd hcon.2 (by decide))).1⟩
